import Mathlib

/-!
# Resilience layer of the bayut-test repository: shallow embedding and verification

This file embeds the resilience/reliability subsystem of the repository
(circuit breaker, exponential-backoff retry, bounded priority queue,
metrics/histogram collector and the composing API client) as executable Lean
definitions and proves the specification claims about it.

Conventions of the embedding:

* JavaScript `number` values that the claims use as integers are modelled as
  `Nat`/`Int`; values flowing through averages, percentile and jitter
  computations are modelled as `ℚ` (exact arithmetic; the concrete inputs of
  the claims produce the same results as IEEE doubles).
* Thrown JavaScript values are modelled by the structure `JsError`.  Object
  identity of an error is modelled by the `tag` field: `new Error(...)`
  allocates a fresh object, modelled by tag `0`, while caller-created errors
  in counterexamples carry a nonzero tag.
* An asynchronous operation is modelled by an oracle giving the outcome of
  its n-th invocation; the per-call timeout race of the breaker is folded
  into that outcome (a timeout is a failure outcome, as in the source, where
  the timer rejection is caught by the same `catch` block).
-/

/-- Model of a JavaScript response body carried by an axios error
(`error.response.data` with optional `message` / `error` string fields). -/
structure RespData where
  message : Option String
  error : Option String
deriving Repr, DecidableEq

/-- Model of `error.response` on an axios error: an HTTP status plus an
optional body. -/
structure Resp where
  status : Nat
  data : Option RespData
deriving Repr, DecidableEq

/-- Model of a thrown JavaScript value.  `isAxios` is `axios.isAxiosError`,
`isError` is `instanceof Error`, `hasRequest` models a truthy
`error.request`, `response` models `error.response` (`none` = absent).
`tag` models object identity: `new Error` allocations use tag `0`. -/
structure JsError where
  isAxios : Bool := false
  isError : Bool := true
  hasRequest : Bool := false
  response : Option Resp := none
  message : String := ""
  tag : Nat := 0
deriving Repr, DecidableEq

/-- JavaScript `a || b` for an optional numeric option field: `undefined`
and `0` are falsy and select the default. -/
def jsOrNat (o : Option Nat) (d : Nat) : Nat :=
  match o with
  | none => d
  | some v => if v = 0 then d else v

/-- JavaScript `a || b` for an optional string: `undefined` and the empty
string are falsy and select the default. -/
def jsOrStr (o : Option String) (d : String) : String :=
  match o with
  | none => d
  | some s => if s = "" then d else s

/-! ## Circuit breaker (src/frontend/lib/circuit-breaker.ts) -/

/-- The `state` field of `CircuitBreakerState`:
`'closed' | 'open' | 'halfOpen'`. -/
inductive BMode where
  | closed
  | opened
  | halfOpen
deriving Repr, DecidableEq

/-- `CircuitBreakerState`: mutable bookkeeping of one `CircuitBreaker`. -/
structure BState where
  mode : BMode
  failures : Nat
  successes : Nat
  lastFailureTime : Option Nat
deriving Repr, DecidableEq

/-- Initial breaker state (`state: 'closed', failures: 0, successes: 0`,
`lastFailureTime` absent). -/
def initB : BState := ⟨BMode.closed, 0, 0, none⟩

/-- `CircuitBreakerOptions` as passed to the constructor: every field
optional (`name` is irrelevant to the claims and omitted). -/
structure RawOptions where
  timeout : Option Nat := none
  errorThresholdPercentage : Option Nat := none
  resetTimeout : Option Nat := none
deriving Repr, DecidableEq

/-- Resolved options (`Required<CircuitBreakerOptions>`). -/
structure BConfig where
  timeout : Nat
  errorThresholdPercentage : Nat
  resetTimeout : Nat
deriving Repr, DecidableEq

/-- The constructor's defaulting:
`timeout: options.timeout || 5000`, etc. -/
def resolveOptions (o : RawOptions) : BConfig :=
  { timeout := jsOrNat o.timeout 5000
    errorThresholdPercentage := jsOrNat o.errorThresholdPercentage 50
    resetTimeout := jsOrNat o.resetTimeout 30000 }

/-- `this.failureThreshold = Math.ceil((errorThresholdPercentage / 100) * 10)`;
for a natural percentage this is the ceiling of `pct * 10 / 100`. -/
def failureThreshold (cfg : BConfig) : Nat :=
  (cfg.errorThresholdPercentage * 10 + 99) / 100

/-- The error thrown while the breaker is open
(`new Error('Circuit breaker is open. ...')`). -/
def circuitOpenError : JsError :=
  { isError := true
    message := "Circuit breaker is open. Too many failures. Please try again later." }

/-- Body of the `try`/`catch` in `CircuitBreaker.fire`, i.e. the part after
the open-state check: the wrapped operation is invoked (raced against the
timeout; `outcome` is the settled result of that race, a timeout being an
error outcome) and the state bookkeeping of the success / failure branches
is applied. -/
def runCall (cfg : BConfig) (now : Nat) (outcome : Except JsError Nat)
    (s : BState) : BState × Except JsError Nat :=
  match outcome with
  | Except.ok v =>
    if s.mode = BMode.halfOpen then
      ({ s with mode := BMode.closed, failures := 0, successes := 0 }, Except.ok v)
    else
      let s2 := { s with successes := s.successes + 1 }
      ((if 5 ≤ s2.successes then { s2 with failures := 0 } else s2), Except.ok v)
  | Except.error e =>
    let s2 := { s with failures := s.failures + 1, lastFailureTime := some now }
    ((if failureThreshold cfg ≤ s2.failures then { s2 with mode := BMode.opened } else s2),
      Except.error e)

/-- `CircuitBreaker.fire`.  `now` is `Date.now()` for this call, `outcome`
the oracle outcome of the wrapped operation.  Returns the new state, the
settled result of the call, and whether the wrapped operation was invoked
(`false` exactly on the fast-fail rejection path). -/
def fire (cfg : BConfig) (now : Nat) (outcome : Except JsError Nat)
    (s : BState) : BState × Except JsError Nat × Bool :=
  if s.mode = BMode.opened then
    if now - s.lastFailureTime.getD 0 > cfg.resetTimeout then
      let r := runCall cfg now outcome { s with mode := BMode.halfOpen }
      (r.1, r.2, true)
    else
      (s, Except.error circuitOpenError, false)
  else
    let r := runCall cfg now outcome s
    (r.1, r.2, true)

/-- Runs a chronological list of calls `(now, outcome)` against a breaker,
also counting how often the wrapped operation was actually invoked
(the call-count spy of the spec). -/
def runBC (cfg : BConfig) (inputs : List (Nat × Except JsError Nat)) : BState × Nat :=
  inputs.foldl
    (fun p inp =>
      let r := fire cfg inp.1 inp.2 p.1
      (r.1, p.2 + (if r.2.2 then 1 else 0)))
    (initB, 0)

/-- The breaker state after a chronological list of calls. -/
def runB (cfg : BConfig) (inputs : List (Nat × Except JsError Nat)) : BState :=
  (runBC cfg inputs).1

/-- Reachability invariant of a breaker: between calls the state is never
`halfOpen`, a closed breaker has strictly fewer tracked failures than the
threshold, and an open breaker has at least the threshold many. -/
def BInv (cfg : BConfig) (s : BState) : Prop :=
  s.mode ≠ BMode.halfOpen ∧
  (s.mode = BMode.closed → s.failures < failureThreshold cfg) ∧
  (s.mode = BMode.opened → failureThreshold cfg ≤ s.failures)

theorem jsOrNat_pos (o : Option Nat) (d : Nat) (hd : 1 ≤ d) : 1 ≤ jsOrNat o d := by
  unfold jsOrNat
  rcases o with _ | v
  · exact hd
  · simp only
    split
    · exact hd
    · omega

theorem failureThreshold_pos (o : RawOptions) :
    1 ≤ failureThreshold (resolveOptions o) := by
  have h := jsOrNat_pos o.errorThresholdPercentage 50 (by decide)
  show 1 ≤ (jsOrNat o.errorThresholdPercentage 50 * 10 + 99) / 100
  omega

theorem binv_init (cfg : BConfig) (h : 1 ≤ failureThreshold cfg) :
    BInv cfg initB := by
  refine ⟨by simp [initB], ?_, ?_⟩
  · intro _; simpa [initB] using h
  · intro hm; simp [initB] at hm

theorem binv_fire (cfg : BConfig) (h : 1 ≤ failureThreshold cfg)
    (s : BState) (hs : BInv cfg s) (now : Nat) (outcome : Except JsError Nat) :
    BInv cfg (fire cfg now outcome s).1 := by
  obtain ⟨hho, hcl, hop⟩ := hs
  rcases hmode : s.mode with _ | _ | _
  · specialize hcl hmode
    rcases outcome with v | e <;>
      simp [fire, runCall, hmode, BInv] <;> split <;> simp_all <;> omega
  · specialize hop hmode
    rcases outcome with v | e <;>
      simp [fire, runCall, hmode, BInv] <;> split_ifs <;> simp_all <;> omega
  · exact absurd hmode hho

theorem binv_runB (o : RawOptions) (inputs : List (Nat × Except JsError Nat)) :
    BInv (resolveOptions o) (runB (resolveOptions o) inputs) := by
  have hθ := failureThreshold_pos o
  unfold runB runBC
  induction inputs using List.reverseRecOn with
  | nil => exact binv_init _ hθ
  | append_singleton l x ih =>
    rw [List.foldl_append]
    exact binv_fire _ hθ _ ih _ _

/-- `Except.isOk` as an executable predicate on call outcomes. -/
def isOkE (o : Except JsError Nat) : Bool :=
  match o with
  | Except.ok _ => true
  | Except.error _ => false

/-- The cooldown guard of `fire`:
`Date.now() - (this.state.lastFailureTime || 0) > this.options.resetTimeout`. -/
def elapsedCooldown (cfg : BConfig) (now : Nat) (s : BState) : Prop :=
  now - s.lastFailureTime.getD 0 > cfg.resetTimeout

instance (cfg : BConfig) (now : Nat) (s : BState) :
    Decidable (elapsedCooldown cfg now s) := by
  unfold elapsedCooldown; infer_instance

/-- Full characterisation of one `fire` call from a reachable state: the
`state` field only moves along the four edges of the specified state
machine, each under exactly its specified condition. -/
def FireStepSpec (cfg : BConfig) (now : Nat) (outcome : Except JsError Nat)
    (s : BState) : Prop :=
  let r := fire cfg now outcome s
  let s1 := r.1
  s.mode ≠ BMode.halfOpen ∧
  (s.mode = BMode.closed → isOkE outcome = true → s1.mode = BMode.closed) ∧
  (s.mode = BMode.closed → isOkE outcome = false →
    s1.failures = s.failures + 1 ∧
    (s1.mode = BMode.opened ↔ s1.failures = failureThreshold cfg) ∧
    (s1.failures < failureThreshold cfg → s1.mode = BMode.closed)) ∧
  (s.mode = BMode.opened → ¬ elapsedCooldown cfg now s →
    s1 = s ∧ r.2.1 = Except.error circuitOpenError ∧ r.2.2 = false) ∧
  (s.mode = BMode.opened → elapsedCooldown cfg now s →
    (r = (let rc := runCall cfg now outcome { s with mode := BMode.halfOpen }
          (rc.1, rc.2, true))) ∧
    (isOkE outcome = true → s1.mode = BMode.closed ∧ s1.failures = 0) ∧
    (isOkE outcome = false → s1.mode = BMode.opened))

theorem fireStepSpec_of_inv (cfg : BConfig) (h : 1 ≤ failureThreshold cfg)
    (s : BState) (hs : BInv cfg s) (now : Nat) (outcome : Except JsError Nat) :
    FireStepSpec cfg now outcome s := by
  obtain ⟨hho, hcl, hop⟩ := hs
  rcases hmode : s.mode with _ | _ | _
  · -- closed state
    specialize hcl hmode
    refine ⟨hho, ?_, ?_, ?_, ?_⟩
    · intro _ hok
      rcases outcome with e | v
      · simp [isOkE] at hok
      · simp [fire, runCall, hmode]
        split_ifs <;> simp [hmode]
    · intro _ herr
      rcases outcome with e | v
      · simp only [fire, runCall, hmode]
        simp only [reduceCtorEq, if_false]
        split_ifs with hif
        · refine ⟨rfl, ?_, ?_⟩
          · refine ⟨fun _ => ?_, fun _ => rfl⟩
            show s.failures + 1 = failureThreshold cfg
            omega
          · intro hlt
            have hlt2 : s.failures + 1 < failureThreshold cfg := hlt
            omega
        · refine ⟨rfl, ?_, ?_⟩
          · simp only [reduceCtorEq, false_iff]; omega
          · intro _; simp [hmode]
      · simp [isOkE] at herr
    · intro hm2 _; rw [hmode] at hm2; cases hm2
    · intro hm2 _; rw [hmode] at hm2; cases hm2
  · -- open state
    specialize hop hmode
    refine ⟨hho, ?_, ?_, ?_, ?_⟩
    · intro hm2 _; rw [hmode] at hm2; cases hm2
    · intro hm2 _; rw [hmode] at hm2; cases hm2
    · intro _ hne
      unfold elapsedCooldown at hne
      simp [fire, hmode, hne]
    · intro _ hel
      unfold elapsedCooldown at hel
      refine ⟨by simp [fire, hmode, hel], ?_, ?_⟩
      · intro hok
        rcases outcome with e | v
        · simp [isOkE] at hok
        · simp [fire, runCall, hmode, hel]
      · intro herr
        rcases outcome with e | v
        · have h2 : failureThreshold cfg ≤ s.failures + 1 := by omega
          simp [fire, runCall, hmode, hel, h2]
        · simp [isOkE] at herr
  · exact absurd hmode hho

/-- C1: the circuit breaker's `state` field changes only along the four
edges of the specified state machine — closed→open exactly when the
cumulative tracked failure count reaches
`ceil(errorThresholdPercentage/100 * 10)` and never before, open→half-open
when a call arrives after the cooldown has elapsed, half-open→closed when
the trial call succeeds, and half-open→open when the trial call fails —
for every option set and every sequence of fire-call outcomes. -/
theorem breaker_state_machine (o : RawOptions)
    (inputs : List (Nat × Except JsError Nat)) (now : Nat)
    (outcome : Except JsError Nat) :
    FireStepSpec (resolveOptions o) now outcome (runB (resolveOptions o) inputs) :=
  fireStepSpec_of_inv (resolveOptions o) (failureThreshold_pos o)
    (runB (resolveOptions o) inputs) (binv_runB o inputs) now outcome

/-- Witness for C1: the step specification evaluated on a concrete
trace (four failures, then the opening fifth failure, with defaults). -/
theorem breaker_state_machine_witness :
    FireStepSpec (resolveOptions {}) 3
      (Except.error { tag := 1 })
      (runB (resolveOptions {})
        [(0, Except.error { tag := 1 }), (1, Except.error { tag := 1 }),
         (2, Except.error { tag := 1 }), (2, Except.error { tag := 1 })]) :=
  breaker_state_machine {}
    [(0, Except.error { tag := 1 }), (1, Except.error { tag := 1 }),
     (2, Except.error { tag := 1 }), (2, Except.error { tag := 1 })]
    3 (Except.error { tag := 1 })

/-- Behaviour of a single call arriving while the breaker is open: either
it is rejected with the "circuit open" error, leaving both the state and
the spy's invocation count unchanged, or — once strictly more than
`resetTimeout` has elapsed since the last failure — it moves the breaker to
half-open and proceeds to invoke the wrapped operation. -/
def OpenCallSpec (cfg : BConfig) (inputs : List (Nat × Except JsError Nat))
    (now : Nat) (outcome : Except JsError Nat) : Prop :=
  let p := runBC cfg inputs
  let s := p.1
  let r := fire cfg now outcome s
  (¬ elapsedCooldown cfg now s →
    r.2.1 = Except.error circuitOpenError ∧ r.2.2 = false ∧
    runBC cfg (inputs ++ [(now, outcome)]) = p) ∧
  (elapsedCooldown cfg now s →
    r.2.2 = true ∧
    r = (let rc := runCall cfg now outcome { s with mode := BMode.halfOpen }
         (rc.1, rc.2, true)))

theorem runBC_append (cfg : BConfig) (inputs : List (Nat × Except JsError Nat))
    (x : Nat × Except JsError Nat) :
    runBC cfg (inputs ++ [x]) =
      (let p := runBC cfg inputs
       let r := fire cfg x.1 x.2 p.1
       (r.1, p.2 + (if r.2.2 then 1 else 0))) := by
  unfold runBC
  rw [List.foldl_append]
  rfl

/-- C2: while the breaker is open and the cooldown has not elapsed, every
call is rejected immediately with the "circuit open" error and the wrapped
operation is never invoked (the call count is unchanged); once more than
`resetTimeout` ms have elapsed since the last failure, the next call
transitions the state to half-open and invokes the wrapped operation. -/
theorem breaker_open_fast_fail (o : RawOptions)
    (inputs : List (Nat × Except JsError Nat)) (now : Nat)
    (outcome : Except JsError Nat)
    (hopen : (runBC (resolveOptions o) inputs).1.mode = BMode.opened) :
    OpenCallSpec (resolveOptions o) inputs now outcome := by
  constructor
  · intro hne
    unfold elapsedCooldown at hne
    refine ⟨by simp [fire, hopen, hne], by simp [fire, hopen, hne], ?_⟩
    rw [runBC_append]
    simp [fire, hopen, hne]
  · intro hel
    unfold elapsedCooldown at hel
    exact ⟨by simp [fire, hopen, hel], by simp [fire, hopen, hel]⟩

/-- Concrete trace used by the C2 witness: five failing calls at time 0
with default options (threshold 5) leave the breaker open. -/
def openTrace : List (Nat × Except JsError Nat) :=
  List.replicate 5 (0, Except.error { tag := 1 })

/-- Witness for C2: after five failures the breaker is open; the
specification of a call arriving at time 10 (cooldown 30000 not elapsed)
follows from the theorem. -/
theorem breaker_open_fast_fail_witness :
    (runBC (resolveOptions {}) openTrace).1.mode = BMode.opened ∧
    OpenCallSpec (resolveOptions {}) openTrace 10 (Except.error { tag := 2 }) :=
  ⟨by decide, breaker_open_fast_fail {} openTrace 10 (Except.error { tag := 2 }) (by decide)⟩

/-- Trace refuting the "consecutive" reading of the success decay: four
successes, then one failure.  The success counter is not reset by the
failure, so the next success is the fifth *cumulative* (but only the first
*consecutive*) tracked success. -/
def c7Trace : List (Nat × Except JsError Nat) :=
  [(0, Except.ok 0), (0, Except.ok 0), (0, Except.ok 0), (0, Except.ok 0),
   (0, Except.error { tag := 1 })]

/-- Counterexample to C7 as stated: after `c7Trace` the breaker is closed
with `failures = 1` and `successes = 4`; the next successful call is
preceded immediately by a failure, so there are fewer than 5 *consecutive*
tracked successes, yet `failures` is reset to 0 (the code counts
cumulative, not consecutive, successes). -/
theorem breaker_success_reset_counterexample :
    (runB (resolveOptions {}) c7Trace).mode = BMode.closed ∧
    (runB (resolveOptions {}) c7Trace).failures = 1 ∧
    (runB (resolveOptions {}) c7Trace).successes = 4 ∧
    (fire (resolveOptions {}) 1 (Except.ok 0)
        (runB (resolveOptions {}) c7Trace)).1.failures = 0 := by
  decide

/-- C7 (amended): a successful call while the breaker is closed keeps it
closed and increments `successes`; once the *cumulative* tracked success
count (which failures do not reset) reaches 5, `failures` is reset to 0,
and while it is still below 5 the success leaves `failures` unchanged. -/
theorem breaker_success_cumulative (cfg : BConfig) (s : BState) (now : Nat)
    (v : Nat) (hm : s.mode = BMode.closed) :
    (fire cfg now (Except.ok v) s).1.mode = BMode.closed ∧
    (fire cfg now (Except.ok v) s).1.successes = s.successes + 1 ∧
    (5 ≤ s.successes + 1 → (fire cfg now (Except.ok v) s).1.failures = 0) ∧
    (s.successes + 1 < 5 → (fire cfg now (Except.ok v) s).1.failures = s.failures) := by
  simp only [fire, runCall, hm, reduceCtorEq, if_false]
  split_ifs with hif <;>
    refine ⟨by simp [hm], by simp, ?_, ?_⟩ <;> intro hc <;> simp_all <;> omega

/-- Witness for C7 (amended): concrete closed state with 4 prior successes
and 1 tracked failure; the fifth success resets `failures` to 0. -/
theorem breaker_success_cumulative_witness :
    (fire (resolveOptions {}) 1 (Except.ok 0) ⟨BMode.closed, 1, 4, some 0⟩).1.mode
        = BMode.closed ∧
    (fire (resolveOptions {}) 1 (Except.ok 0) ⟨BMode.closed, 1, 4, some 0⟩).1.successes = 5 ∧
    (5 ≤ 4 + 1 → (fire (resolveOptions {}) 1 (Except.ok 0)
        ⟨BMode.closed, 1, 4, some 0⟩).1.failures = 0) ∧
    (4 + 1 < 5 → (fire (resolveOptions {}) 1 (Except.ok 0)
        ⟨BMode.closed, 1, 4, some 0⟩).1.failures = 1) :=
  breaker_success_cumulative (resolveOptions {}) ⟨BMode.closed, 1, 4, some 0⟩ 1 0 rfl

/-! ## Retry with exponential backoff (src/frontend/lib/retry.ts) -/

/-- `RetryOptions` with the destructuring defaults of `retryWithBackoff`. -/
structure RetryOpts where
  maxAttempts : Nat := 3
  initialDelay : Nat := 1000
  maxDelay : Nat := 10000
  factor : Nat := 2
  jitter : Bool := true
deriving Repr, DecidableEq

/-- The default `retryable` predicate: retry on network errors (no
`error.response`) and on 5xx statuses. -/
def defaultRetryable (e : JsError) : Bool :=
  match e.response with
  | none => true
  | some r => decide (500 ≤ r.status ∧ r.status < 600)

/-- `Math.min(initialDelay * Math.pow(factor, attempt - 1), maxDelay)`. -/
def baseDelay (o : RetryOpts) (attempt : Nat) : ℚ :=
  min ((o.initialDelay : ℚ) * (o.factor : ℚ) ^ (attempt - 1)) (o.maxDelay : ℚ)

/-- The jittered sleep before the retry following `attempt`:
`baseDelay + (jitter ? Math.random() * 0.3 * baseDelay : 0)`; `rand` is the
oracle for `Math.random()` at each attempt. -/
def sleepDelay (o : RetryOpts) (rand : Nat → ℚ) (attempt : Nat) : ℚ :=
  baseDelay o attempt +
    (if o.jitter then rand attempt * (3 / 10 : ℚ) * baseDelay o attempt else 0)

/-- What the trailing `throw lastError` throws when the loop body never ran
(JavaScript `undefined`); reachable only for `maxAttempts = 0`. -/
def undefinedThrown : JsError := { isError := false }

/-- The `for` loop of `retryWithBackoff`, over an effectful operation
modelled as a state-threading step (`fn` may close over mutable state such
as a circuit breaker).  `fuel` is the number of remaining loop iterations,
`attempt` the 1-based attempt counter.  Returns the final operation state,
the settled result, and the list of slept backoff delays in order. -/
def retryGo {σ : Type} (step : σ → σ × Except JsError Nat)
    (retryable : JsError → Bool) (o : RetryOpts) (rand : Nat → ℚ) :
    Nat → Nat → σ → σ × Except JsError Nat × List ℚ
  | 0, _, s => (s, Except.error undefinedThrown, [])
  | fuel + 1, attempt, s =>
    let r := step s
    match r.2 with
    | Except.ok v => (r.1, Except.ok v, [])
    | Except.error e =>
      if retryable e = false then (r.1, Except.error e, [])
      else if attempt = o.maxAttempts then (r.1, Except.error e, [])
      else
        let rest := retryGo step retryable o rand fuel (attempt + 1) r.1
        (rest.1, rest.2.1, sleepDelay o rand attempt :: rest.2.2)

/-- `retryWithBackoff(fn, options)`: run the loop from attempt 1 with
`maxAttempts` iterations of fuel. -/
def retryWithBackoff {σ : Type} (step : σ → σ × Except JsError Nat)
    (retryable : JsError → Bool) (o : RetryOpts) (rand : Nat → ℚ)
    (s : σ) : σ × Except JsError Nat × List ℚ :=
  retryGo step retryable o rand o.maxAttempts 1 s

/-- A stateless operation as an attempt-indexed oracle: the state is the
1-based index of the next invocation. -/
def stepOfOracle (op : Nat → Except JsError Nat) :
    Nat → Nat × Except JsError Nat :=
  fun n => (n + 1, op n)

/-- `retryWithBackoff` on an attempt-indexed oracle; the first component of
the result is one more than the number of invocations made. -/
def retryOracle (op : Nat → Except JsError Nat) (retryable : JsError → Bool)
    (o : RetryOpts) (rand : Nat → ℚ) : Nat × Except JsError Nat × List ℚ :=
  retryWithBackoff (stepOfOracle op) retryable o rand 1

theorem retryGo_success (o : RetryOpts) (retryable : JsError → Bool)
    (rand : Nat → ℚ) (op : Nat → Except JsError Nat) (k v : Nat)
    (hk : k ≤ o.maxAttempts) (hok : op k = Except.ok v) :
    ∀ n a, 1 ≤ a → k - a = n → a ≤ k →
      (∀ i, a ≤ i → i < k → ∃ e, op i = Except.error e ∧ retryable e = true) →
      retryGo (stepOfOracle op) retryable o rand (o.maxAttempts - a + 1) a a =
        (k + 1, Except.ok v, (List.range' a (k - a)).map (sleepDelay o rand)) := by
  intro n
  induction n with
  | zero =>
    intro a ha1 hn hak hfail
    have hae : a = k := by omega
    subst hae
    simp [retryGo, stepOfOracle, hok]
  | succ m ih =>
    intro a ha1 hn hak hfail
    have hlt : a < k := by omega
    obtain ⟨e, he, hre⟩ := hfail a (le_refl a) hlt
    have hfuel : o.maxAttempts - a + 1 = (o.maxAttempts - (a + 1) + 1) + 1 := by omega
    rw [hfuel]
    have hne : ¬ (a = o.maxAttempts) := by omega
    rw [show k - a = m + 1 by omega, List.range'_succ]
    rw [retryGo]
    simp only [stepOfOracle, he, hre, if_neg hne, Bool.true_eq_false, if_false]
    rw [ih (a + 1) (by omega) (by omega) (by omega)
      (fun i hi1 hi2 => hfail i (by omega) hi2)]
    simp
    rw [show k - (a + 1) = m from by omega]

theorem retryGo_exhaust (o : RetryOpts) (retryable : JsError → Bool)
    (rand : Nat → ℚ) (op : Nat → Except JsError Nat) (elast : JsError)
    (hlast : op o.maxAttempts = Except.error elast)
    (hre : retryable elast = true) :
    ∀ n a, 1 ≤ a → o.maxAttempts - a = n → a ≤ o.maxAttempts →
      (∀ i, a ≤ i → i < o.maxAttempts →
        ∃ e, op i = Except.error e ∧ retryable e = true) →
      retryGo (stepOfOracle op) retryable o rand (o.maxAttempts - a + 1) a a =
        (o.maxAttempts + 1, Except.error elast,
          (List.range' a (o.maxAttempts - a)).map (sleepDelay o rand)) := by
  intro n
  induction n with
  | zero =>
    intro a ha1 hn hak hfail
    have hae : a = o.maxAttempts := by omega
    subst hae
    simp [retryGo, stepOfOracle, hlast, hre]
  | succ m ih =>
    intro a ha1 hn hak hfail
    have hlt : a < o.maxAttempts := by omega
    obtain ⟨e, he, hre2⟩ := hfail a (le_refl a) hlt
    have hfuel : o.maxAttempts - a + 1 = (o.maxAttempts - (a + 1) + 1) + 1 := by omega
    rw [hfuel]
    have hne : ¬ (a = o.maxAttempts) := by omega
    rw [show o.maxAttempts - a = m + 1 by omega, List.range'_succ]
    rw [retryGo]
    simp only [stepOfOracle, he, hre2, if_neg hne, Bool.true_eq_false, if_false]
    rw [ih (a + 1) (by omega) (by omega) (by omega)
      (fun i hi1 hi2 => hfail i (by omega) hi2)]
    simp
    rw [show o.maxAttempts - (a + 1) = m from by omega]

/-- A network-level failure (no `response` context) used by the concrete
retry scenario of the spec. -/
def netErr : JsError := { tag := 3 }

/-- Concrete operation of the spec's retry scenario: fails on attempts 1
and 2, succeeds on attempt 3. -/
def c3op : Nat → Except JsError Nat :=
  fun n => if n ≤ 2 then Except.error netErr else Except.ok 7

/-- C3: `retryWithBackoff` returns the result on success; a non-retryable
failure is rethrown immediately after a single attempt (with the default
predicate, retryable ⟺ no response context or status in [500,600), so a
4xx aborts after attempt 1 regardless of `maxAttempts`); a failure at the
last attempt is rethrown; otherwise it sleeps
`min(initialDelay * factor^(attempt-1), maxDelay)` plus a jitter bounded by
`0.3 * delay` when enabled, and retries; with
`maxAttempts=3, initialDelay=100, factor=2, jitter=false` an operation
failing twice then succeeding resolves after exactly the delays
100 ms and 200 ms. -/
theorem retry_with_backoff_spec :
    (∀ e : JsError, defaultRetryable e = true ↔
      (e.response = none ∨
        ∃ r, e.response = some r ∧ 500 ≤ r.status ∧ r.status < 600)) ∧
    (∀ (o : RetryOpts) (rand : Nat → ℚ) (op : Nat → Except JsError Nat)
        (retryable : JsError → Bool) (k v : Nat),
      1 ≤ k → k ≤ o.maxAttempts →
      (∀ i, 1 ≤ i → i < k → ∃ e, op i = Except.error e ∧ retryable e = true) →
      op k = Except.ok v →
      retryOracle op retryable o rand =
        (k + 1, Except.ok v, (List.range' 1 (k - 1)).map (sleepDelay o rand))) ∧
    (∀ (o : RetryOpts) (rand : Nat → ℚ) (op : Nat → Except JsError Nat)
        (retryable : JsError → Bool) (e : JsError),
      1 ≤ o.maxAttempts → op 1 = Except.error e → retryable e = false →
      retryOracle op retryable o rand = (2, Except.error e, [])) ∧
    (∀ (o : RetryOpts) (rand : Nat → ℚ) (op : Nat → Except JsError Nat)
        (e : JsError) (r : Resp),
      1 ≤ o.maxAttempts → op 1 = Except.error e → e.response = some r →
      400 ≤ r.status → r.status < 500 →
      retryOracle op defaultRetryable o rand = (2, Except.error e, [])) ∧
    (∀ (o : RetryOpts) (rand : Nat → ℚ) (op : Nat → Except JsError Nat)
        (retryable : JsError → Bool) (elast : JsError),
      1 ≤ o.maxAttempts → op o.maxAttempts = Except.error elast →
      retryable elast = true →
      (∀ i, 1 ≤ i → i < o.maxAttempts →
        ∃ e, op i = Except.error e ∧ retryable e = true) →
      retryOracle op retryable o rand =
        (o.maxAttempts + 1, Except.error elast,
          (List.range' 1 (o.maxAttempts - 1)).map (sleepDelay o rand))) ∧
    (∀ (o : RetryOpts) (rand : Nat → ℚ) (attempt : Nat),
      o.jitter = false → sleepDelay o rand attempt = baseDelay o attempt) ∧
    (∀ (o : RetryOpts) (rand : Nat → ℚ) (attempt : Nat),
      o.jitter = true → 0 ≤ rand attempt → rand attempt ≤ 1 →
      baseDelay o attempt ≤ sleepDelay o rand attempt ∧
      sleepDelay o rand attempt ≤
        baseDelay o attempt + (3 / 10 : ℚ) * baseDelay o attempt) ∧
    (retryOracle c3op defaultRetryable
      { maxAttempts := 3, initialDelay := 100, factor := 2, jitter := false }
      (fun _ => 0) = (4, Except.ok 7, [100, 200])) := by
  refine ⟨?_, ?_, ?_, ?_, ?_, ?_, ?_, ?_⟩
  · intro e
    unfold defaultRetryable
    rcases hresp : e.response with _ | r
    · simp [hresp]
    · simp [hresp]
  · intro o rand op retryable k v hk1 hk2 hfail hok
    unfold retryOracle retryWithBackoff
    conv_lhs => rw [show o.maxAttempts = o.maxAttempts - 1 + 1 from by omega]
    exact retryGo_success o retryable rand op k v hk2 hok (k - 1) 1 le_rfl rfl hk1 hfail
  · intro o rand op retryable e hma hop hre
    unfold retryOracle retryWithBackoff
    conv_lhs => rw [show o.maxAttempts = o.maxAttempts - 1 + 1 from by omega]
    rw [retryGo]
    simp [stepOfOracle, hop, hre]
  · intro o rand op e r hma hop hresp h4 h5
    unfold retryOracle retryWithBackoff
    conv_lhs => rw [show o.maxAttempts = o.maxAttempts - 1 + 1 from by omega]
    rw [retryGo]
    have hre : defaultRetryable e = false := by
      unfold defaultRetryable
      rw [hresp]
      simp
      omega
    simp [stepOfOracle, hop, hre]
  · intro o rand op retryable elast hma hlast hre hfail
    unfold retryOracle retryWithBackoff
    conv_lhs => rw [show o.maxAttempts = o.maxAttempts - 1 + 1 from by omega]
    exact retryGo_exhaust o retryable rand op elast hlast hre
      (o.maxAttempts - 1) 1 le_rfl rfl hma hfail
  · intro o rand attempt hj
    simp [sleepDelay, hj]
  · intro o rand attempt hj hr0 hr1
    have hbase : 0 ≤ baseDelay o attempt := by
      unfold baseDelay
      exact le_min (by positivity) (by positivity)
    unfold sleepDelay
    rw [hj]
    constructor
    · simp only [if_true]
      nlinarith
    · simp only [if_true]
      nlinarith
  · norm_num [retryOracle, retryWithBackoff, retryGo, stepOfOracle, c3op,
      defaultRetryable, netErr, sleepDelay, baseDelay]

/-- A 404 client error used by the C3 witness. -/
def e404 : JsError := { response := some { status := 404, data := none }, tag := 4 }

/-- Witness for C3: a 404 failure on attempt 1 with the default predicate
aborts immediately, returning the original error after one invocation. -/
theorem retry_with_backoff_spec_witness :
    retryOracle (fun _ => Except.error e404) defaultRetryable {} (fun _ => 0) =
      (2, Except.error e404, []) :=
  retry_with_backoff_spec.2.2.1 {} (fun _ => 0) (fun _ => Except.error e404)
    defaultRetryable e404 (by decide) rfl (by decide)

/-! ## Metrics collector (`MetricsService`, bundled with the circuit
breaker source file) -/

/-- `Record<string, string>` tag maps. -/
abbrev Tags := List (String × String)

/-- A raw metric sample. -/
structure Metric where
  name : String
  value : ℚ
  timestamp : Nat
  tags : Option Tags
deriving Repr, DecidableEq

/-- A histogram: a named, bounded list of recent values. -/
structure Histogram where
  name : String
  values : List ℚ
  tags : Option Tags
deriving Repr, DecidableEq

/-- The mutable fields of `MetricsService` that the claims concern
(`counters` is untouched by them but kept for shape). -/
structure MetricsState where
  metrics : List Metric
  counters : List (String × ℚ)
  histograms : List (String × Histogram)
deriving Repr, DecidableEq

/-- Fresh `MetricsService` state. -/
def initMetrics : MetricsState := ⟨[], [], []⟩

/-- `private readonly maxMetrics = 10000`. -/
def maxMetrics : Nat := 10000

/-- Deterministic stand-in for `JSON.stringify(tags)` in the key
construction (`tags ? JSON.stringify(tags) : ''`); the claims do not
depend on the exact serialisation, only on its determinism. -/
def tagStr (tags : Option Tags) : String :=
  match tags with
  | none => ""
  | some t => String.intercalate "," (t.map (fun p => p.1 ++ ":" ++ p.2))

/-- `Map.prototype.set`: replace the value under an existing key, else
append (JS maps preserve insertion order). -/
def setAssoc {α : Type} (k : String) (v : α) :
    List (String × α) → List (String × α)
  | [] => [(k, v)]
  | (k2, v2) :: t => if k2 = k then (k2, v) :: t else (k2, v2) :: setAssoc k v t

/-- `recordMetric`: append a timestamped sample, evicting the oldest when
the ring exceeds `maxMetrics`. -/
def recordMetric (st : MetricsState) (name : String) (value : ℚ) (ts : Nat)
    (tags : Option Tags) : MetricsState :=
  let st2 := { st with metrics := st.metrics ++ [⟨name, value, ts, tags⟩] }
  if maxMetrics < st2.metrics.length then
    { st2 with metrics := st2.metrics.tail }
  else st2

/-- `recordHistogram`: append into the per-key value list, evicting the
oldest past 1000 entries. -/
def recordHistogram (st : MetricsState) (name : String) (value : ℚ)
    (tags : Option Tags) : MetricsState :=
  let key := name ++ ":" ++ tagStr tags
  let h := match st.histograms.lookup key with
    | some h => h
    | none => { name := name, values := [], tags := tags }
  let h2 := { h with values := h.values ++ [value] }
  let h3 := if 1000 < h2.values.length then { h2 with values := h2.values.tail }
    else h2
  { st with histograms := setAssoc key h3 st.histograms }

/-- `values.reduce((a, b) => a + b, 0)`. -/
def listSum (l : List ℚ) : ℚ := l.foldl (· + ·) 0

/-- `Math.min(...values)` for the nonempty lists it is applied to (the
empty spread, which would give `Infinity`, is unreachable behind the
emptiness guards). -/
def listMin : List ℚ → ℚ
  | [] => 0
  | h :: t => t.foldl min h

/-- `Math.max(...values)` for nonempty lists. -/
def listMax : List ℚ → ℚ
  | [] => 0
  | h :: t => t.foldl max h

/-- Insert into an ascending list, before the first element it is ≤. -/
def insertSorted (x : ℚ) : List ℚ → List ℚ
  | [] => [x]
  | h :: t => if x ≤ h then x :: h :: t else h :: insertSorted x t

/-- Model of `[...values].sort((a, b) => a - b)`: the ascending sort of the
values (insertion sort; the source's comparator sorts numerically
ascending). -/
def sortAsc (l : List ℚ) : List ℚ := l.foldr insertSorted []

/-- `MetricsService.percentile`:
`index = Math.ceil((p / 100) * sorted.length) - 1` and
`sorted[Math.max(0, index)]`. -/
def percentile (sorted : List ℚ) (p : Nat) : ℚ :=
  let index : Int := ⌈((p : ℚ) / 100) * (sorted.length : ℚ)⌉ - 1
  sorted.getD (max 0 index).toNat 0

/-- Result record of `getHistogramStats`. -/
structure HistStats where
  name : String
  count : Nat
  min : ℚ
  max : ℚ
  avg : ℚ
  p50 : ℚ
  p95 : ℚ
  p99 : ℚ
deriving Repr, DecidableEq

/-- `getHistogramStats`: `null` when the key is absent or has no values;
otherwise min/max/avg plus p50/p95/p99 over the ascending-sorted values. -/
def getHistogramStats (st : MetricsState) (name : String)
    (tags : Option Tags) : Option HistStats :=
  let key := name ++ ":" ++ tagStr tags
  match st.histograms.lookup key with
  | none => none
  | some h =>
    if h.values = [] then none
    else
      let values := h.values
      let sorted := sortAsc values
      some { name := name
             count := values.length
             min := sorted.headD 0
             max := sorted.getLastD 0
             avg := listSum values / (values.length : ℚ)
             p50 := percentile sorted 50
             p95 := percentile sorted 95
             p99 := percentile sorted 99 }

/-- Result record of `getMetricsSummary`. -/
structure Summary where
  name : String
  count : Nat
  sum : ℚ
  avg : ℚ
  min : ℚ
  max : ℚ
deriving Repr, DecidableEq

/-- The `name ? this.metrics.filter(...) : this.metrics` selection of
`getMetricsSummary` (an empty-string name is falsy and selects all). -/
def filteredMetrics (st : MetricsState) (name : Option String) : List Metric :=
  match name with
  | none => st.metrics
  | some n => if n = "" then st.metrics
    else st.metrics.filter (fun m => m.name = n)

/-- `getMetricsSummary(name?, tags?)`: `null` when nothing matches, else
count/sum/avg/min/max of the selected samples.  The `tags` parameter is
declared but never read by the source body. -/
def getMetricsSummary (st : MetricsState) (name : Option String)
    (tags : Option Tags) : Option Summary :=
  let filtered := filteredMetrics st name
  if filtered = [] then none
  else
    let values := filtered.map (fun m => m.value)
    some { name := jsOrStr name "all"
           count := values.length
           sum := listSum values
           avg := listSum values / (values.length : ℚ)
           min := listMin values
           max := listMax values }

/-- The recorded values 1, 2, ..., 100 of the spec's histogram scenario. -/
def values100 : List ℚ := (List.range' 1 100).map (fun v => (v : ℚ))

/-- Metrics state after `recordHistogram('latency', v)` for v = 1..100. -/
def c8State : MetricsState :=
  (List.range' 1 100).foldl
    (fun st v => recordHistogram st "latency" (v : ℚ) none) initMetrics

set_option maxRecDepth 10000 in
theorem c8_lookup : c8State.histograms.lookup ("latency" ++ ":" ++ tagStr none)
    = some { name := "latency", values := values100, tags := none } := by
  decide

set_option maxRecDepth 10000 in
theorem sortAsc_values100 : sortAsc values100 = values100 := by decide

theorem values100_len : (values100.length : ℚ) = 100 := by
  have h : values100.length = 100 := by decide
  rw [h]; norm_num

theorem percentile50_values100 : percentile values100 50 = 50 := by
  unfold percentile
  rw [values100_len]
  norm_num
  decide

theorem percentile95_values100 : percentile values100 95 = 95 := by
  unfold percentile
  rw [values100_len]
  norm_num
  decide

theorem percentile99_values100 : percentile values100 99 = 99 := by
  unfold percentile
  rw [values100_len]
  norm_num
  decide

/-- C8: `getHistogramStats` computes percentiles over the ascending-sorted
recorded values via `index = ceil(p/100 * n) - 1` clamped to ≥ 0 (the
definitions of `percentile` and `getHistogramStats` above); for recorded
values [1, 2, ..., 100], p50 = 50, p95 = 95 and p99 = 99. -/
theorem histogram_percentiles :
    (getHistogramStats c8State "latency" none).map
      (fun s => (s.p50, s.p95, s.p99)) = some (50, 95, 99) := by
  simp only [getHistogramStats]
  rw [c8_lookup]
  have hne : ({ name := "latency", values := values100, tags := none }
      : Histogram).values ≠ [] := by decide
  simp only [hne, if_false, Option.map_some, reduceIte]
  rw [sortAsc_values100]
  rw [percentile50_values100, percentile95_values100, percentile99_values100]
  simp

/-- C10: `getMetricsSummary` reads only the name filter and the recorded
samples — its result is identical for any two `tags` arguments — and when
no recorded sample matches the name filter it returns `null` rather than a
zero-valued summary. -/
theorem metrics_summary_ignores_tags (st : MetricsState) (name : Option String)
    (tags1 tags2 : Option Tags) :
    getMetricsSummary st name tags1 = getMetricsSummary st name tags2 ∧
    (filteredMetrics st name = [] → getMetricsSummary st name tags1 = none) := by
  constructor
  · rfl
  · intro h
    simp only [getMetricsSummary, h, if_pos]

/-- Witness for C10: evaluated on the empty metrics state with a name
filter that matches nothing and two different tag arguments. -/
theorem metrics_summary_ignores_tags_witness :
    getMetricsSummary initMetrics (some "x") (some [("a", "b")]) =
      getMetricsSummary initMetrics (some "x") none ∧
    (filteredMetrics initMetrics (some "x") = [] →
      getMetricsSummary initMetrics (some "x") (some [("a", "b")]) = none) :=
  metrics_summary_ignores_tags initMetrics (some "x") (some [("a", "b")]) none

/-! ## Bounded priority queue (src/backend/src/common/queue/queue.service.ts)

The drain (`processQueue`) runs on the single-threaded event loop: the
`while` loop starts up to `concurrency` head items synchronously (each
`executeTask` suspends at `await item.task()`), and each task's `finally`
handler runs atomically at task settlement.  The model's events are
therefore these atomic blocks.  `activeWorkers` is local to one
`processQueue` invocation; since an invocation that starts tasks first
takes the `processing` flag, which is released only after its last worker
settles with an empty queue, at most one invocation's counter is ever
nonzero, and the model keeps that single counter in `active`, with the ids
of started-but-unsettled tasks instrumented in `running`. -/

/-- A queued item; the task closure and the pending result handle are
identified by `id`. -/
structure QItem where
  id : Nat
  priority : Int
  timestamp : Nat
deriving Repr, DecidableEq

/-- The entries of the four per-name maps of `QueueService` at one key. -/
structure NamedQ where
  queue : List QItem
  processing : Bool
  concurrency : Nat
  maxSize : Nat
  running : List Nat
  active : Nat
deriving Repr, DecidableEq

/-- `initializeQueue` payload: empty queue, flag down, given bounds. -/
def initializeQueueState (concurrency maxSize : Nat) : NamedQ :=
  { queue := [], processing := false, concurrency := concurrency
    maxSize := maxSize, running := [], active := 0 }

/-- The priority insert of `enqueue`:
`const index = queue.findIndex((q) => q.priority < priority)`, then either
`push` (index = -1) or `splice(index, 0, item)`. -/
def insertByPriority (queue : List QItem) (item : QItem) : List QItem :=
  match queue.findIdx? (fun q => q.priority < item.priority) with
  | none => queue ++ [item]
  | some i => queue.take i ++ item :: queue.drop i

/-- `processQueue`: return early when the queue is empty or another drain
holds the `processing` flag; otherwise take the flag and synchronously
start up to `concurrency` head items (`queue.shift()` in the `while`
loop); the flag is cleared at the end of the loop only when no task was
started. -/
def processQueue (s : NamedQ) : NamedQ :=
  if s.queue = [] then s
  else if s.processing then s
  else
    let k := min s.queue.length s.concurrency
    { s with processing := decide (k ≠ 0)
             queue := s.queue.drop k
             running := s.running ++ (s.queue.take k).map (fun i => i.id)
             active := k }

/-- Settlement of running task `tid`: the `finally` handler decrements
`activeWorkers`, then either re-invokes `processQueue` (items waiting and
a slot free) or — when it was the last worker — clears the flag. -/
def completeTask (tid : Nat) (s : NamedQ) : NamedQ :=
  if tid ∈ s.running then
    let s1 := { s with running := s.running.erase tid, active := s.active - 1 }
    if s1.queue ≠ [] ∧ s1.active < s1.concurrency then processQueue s1
    else if s1.active = 0 then { s1 with processing := false }
    else s1
  else s

/-- The service state: the per-name maps, as an insertion-ordered map. -/
structure SState where
  m : List (String × NamedQ)
deriving Repr, DecidableEq

/-- `this.queues.get(name)` (and siblings). -/
def getQ (st : SState) (name : String) : Option NamedQ := st.m.lookup name

/-- `this.queues.set(name, ...)` (and siblings). -/
def setQ (name : String) (q : NamedQ) (st : SState) : SState :=
  ⟨setAssoc name q st.m⟩

/-- `initializeQueue(queueName, concurrency = 5, maxSize = 1000)`. -/
def initializeQueue (name : String) (concurrency maxSize : Nat)
    (st : SState) : SState :=
  setQ name (initializeQueueState concurrency maxSize) st

/-- Message of `new Error('Queue ... is full (max size: ...)')`. -/
def queueFullError (name : String) (maxSize : Nat) : String :=
  "Queue " ++ name ++ " is full (max size: " ++ toString maxSize ++ ")"

/-- `enqueue(queueName, task, priority)`: lazily initialize an unseen
queue, reject synchronously when at `maxSize`, otherwise insert by
priority and invoke `processQueue`.  The returned `Except` is the
synchronous outcome seen by the caller (the task's own settlement is a
separate `completeTask` event). -/
def enqueue (st : SState) (name : String) (id : Nat) (priority : Int)
    (ts : Nat) : SState × Except String Unit :=
  let st1 := if (getQ st name).isNone then initializeQueue name 5 1000 st else st
  match getQ st1 name with
  | none => (st1, Except.error "TypeError")
  | some q =>
    if q.maxSize ≤ q.queue.length then
      (st1, Except.error (queueFullError name q.maxSize))
    else
      let q2 := { q with queue := insertByPriority q.queue ⟨id, priority, ts⟩ }
      (setQ name (processQueue q2) st1, Except.ok ())

/-- `clearQueue`: reject every pending item and empty the queue. -/
def clearQueue (st : SState) (name : String) : SState :=
  match getQ st name with
  | none => st
  | some q => setQ name { q with queue := [] } st

/-- The atomic events of the queue subsystem. -/
inductive SOp where
  | init (name : String) (concurrency maxSize : Nat)
  | enq (name : String) (id : Nat) (priority : Int) (ts : Nat)
  | settle (name : String) (id : Nat)
  | clear (name : String)
deriving Repr, DecidableEq

/-- One event step of the service. -/
def stepS (st : SState) (op : SOp) : SState :=
  match op with
  | SOp.init name c mx => initializeQueue name c mx st
  | SOp.enq name id p ts => (enqueue st name id p ts).1
  | SOp.settle name tid =>
    match getQ st name with
    | none => st
    | some q => setQ name (completeTask tid q) st
  | SOp.clear name => clearQueue st name

/-- The service state after a chronological list of events, from a fresh
service. -/
def runS (ops : List SOp) : SState := ops.foldl stepS ⟨[]⟩

theorem lookup_setAssoc_self {α : Type} (k : String) (v : α)
    (l : List (String × α)) : (setAssoc k v l).lookup k = some v := by
  induction l with
  | nil => simp [setAssoc, List.lookup]
  | cons h t ih =>
    rcases h with ⟨k2, v2⟩
    unfold setAssoc
    split_ifs with hk
    · subst hk
      simp [List.lookup]
    · have hne : (k == k2) = false := by
        simp only [beq_eq_false_iff_ne, ne_eq]
        intro he
        exact hk he.symm
      simp [List.lookup, hne, ih]

theorem lookup_setAssoc_ne {α : Type} (k k2 : String) (v : α)
    (l : List (String × α)) (h : k2 ≠ k) :
    (setAssoc k v l).lookup k2 = l.lookup k2 := by
  induction l with
  | nil =>
    have hne : (k2 == k) = false := by simp [h]
    simp [setAssoc, List.lookup, hne]
  | cons p t ih =>
    rcases p with ⟨k3, v3⟩
    unfold setAssoc
    split_ifs with hk
    · subst hk
      have hne : (k2 == k3) = false := by simp [h]
      simp [List.lookup, hne]
    · by_cases hk23 : k2 = k3
      · subst hk23
        simp [List.lookup]
      · have hne : (k2 == k3) = false := by simp [hk23]
        simp [List.lookup, hne, ih]

theorem getQ_setQ_self (st : SState) (name : String) (q : NamedQ) :
    getQ (setQ name q st) name = some q :=
  lookup_setAssoc_self name q st.m

theorem getQ_setQ_ne (st : SState) (name other : String) (q : NamedQ)
    (h : other ≠ name) : getQ (setQ name q st) other = getQ st other :=
  lookup_setAssoc_ne name other q st.m h

theorem length_insertByPriority (q : List QItem) (item : QItem) :
    (insertByPriority q item).length = q.length + 1 := by
  unfold insertByPriority
  cases hfi : q.findIdx? (fun x => x.priority < item.priority) with
  | none => simp
  | some i =>
    have h := congrArg List.length (List.take_append_drop i q)
    simp only [List.length_append] at h
    simp [List.length_append]
    omega

theorem length_processQueue (s : NamedQ) :
    (processQueue s).queue.length ≤ s.queue.length := by
  unfold processQueue
  split_ifs <;> simp

theorem maxSize_processQueue (s : NamedQ) :
    (processQueue s).maxSize = s.maxSize := by
  unfold processQueue
  split_ifs <;> simp

theorem length_completeTask (tid : Nat) (s : NamedQ) :
    (completeTask tid s).queue.length ≤ s.queue.length ∧
    (completeTask tid s).maxSize = s.maxSize := by
  simp only [completeTask]
  split_ifs <;>
    first
      | exact ⟨length_processQueue _, maxSize_processQueue _⟩
      | exact ⟨le_refl _, rfl⟩

/-- Per-name bound: no queue ever holds more items than its `maxSize`. -/
def QBound (st : SState) : Prop :=
  ∀ name q, getQ st name = some q → q.queue.length ≤ q.maxSize

theorem getQ_enqueue_ne (st : SState) (name other : String) (h : other ≠ name)
    (id : Nat) (p : Int) (ts : Nat) :
    getQ ((enqueue st name id p ts).1) other = getQ st other := by
  unfold enqueue
  rcases hq : getQ st name with _ | q0
  · have h1 : getQ (initializeQueue name 5 1000 st) name
        = some (initializeQueueState 5 1000) := getQ_setQ_self st name _
    simp only [hq, Option.isNone_none, if_true, h1, initializeQueueState]
    rw [if_neg (by simp)]
    show getQ (setQ name _ (initializeQueue name 5 1000 st)) other = getQ st other
    rw [getQ_setQ_ne _ _ _ _ h]
    exact getQ_setQ_ne _ _ _ _ h
  · simp only [hq, Option.isNone_some, Bool.false_eq_true, if_false]
    split_ifs with hfull
    · rfl
    · show getQ (setQ name _ st) other = getQ st other
      exact getQ_setQ_ne _ _ _ _ h

theorem qBound_step (st : SState) (op : SOp) (h : QBound st) :
    QBound (stepS st op) := by
  intro name q hq
  cases op with
  | init n c mx =>
    simp only [stepS] at hq
    by_cases hn : name = n
    · subst hn
      unfold initializeQueue at hq
      rw [getQ_setQ_self] at hq
      cases hq
      simp [initializeQueueState]
    · unfold initializeQueue at hq
      rw [getQ_setQ_ne _ _ _ _ hn] at hq
      exact h name q hq
  | enq n id p ts =>
    simp only [stepS] at hq
    by_cases hn : name = n
    · subst hn
      unfold enqueue at hq
      rcases hq0 : getQ st name with _ | q0
      · have h1 : getQ (initializeQueue name 5 1000 st) name
            = some (initializeQueueState 5 1000) := getQ_setQ_self st name _
        simp only [hq0, Option.isNone_none, if_true, h1, initializeQueueState] at hq
        rw [if_neg (by simp)] at hq
        simp only at hq
        rw [getQ_setQ_self] at hq
        cases hq
        have h1 := length_processQueue
          { queue := insertByPriority [] ⟨id, p, ts⟩, processing := false,
            concurrency := 5, maxSize := 1000, running := [], active := 0 }
        have h2 := maxSize_processQueue
          { queue := insertByPriority [] ⟨id, p, ts⟩, processing := false,
            concurrency := 5, maxSize := 1000, running := [], active := 0 }
        rw [h2]
        simp only [length_insertByPriority, List.length_nil] at h1
        exact le_trans h1 (show 0 + 1 ≤ 1000 by decide)
      · simp only [hq0, Option.isNone_some, Bool.false_eq_true, if_false] at hq
        split_ifs at hq with hfull
        · simp only at hq
          rw [hq0] at hq
          cases hq
          exact h name _ hq0
        · simp only at hq
          rw [getQ_setQ_self] at hq
          cases hq
          have h1 := length_processQueue
            { q0 with queue := insertByPriority q0.queue ⟨id, p, ts⟩ }
          have h2 := maxSize_processQueue
            { q0 with queue := insertByPriority q0.queue ⟨id, p, ts⟩ }
          rw [h2]
          simp only [length_insertByPriority] at h1
          have h3 := h name q0 hq0
          simp only at h1 ⊢
          omega
    · rw [getQ_enqueue_ne st n name hn] at hq
      exact h name q hq
  | settle n tid =>
    simp only [stepS] at hq
    rcases hq0 : getQ st n with _ | q0
    · rw [hq0] at hq
      exact h name q hq
    · rw [hq0] at hq
      by_cases hn : name = n
      · subst hn
        rw [getQ_setQ_self] at hq
        cases hq
        have h1 := length_completeTask tid q0
        have h3 := h name q0 hq0
        omega
      · rw [getQ_setQ_ne _ _ _ _ hn] at hq
        exact h name q hq
  | clear n =>
    simp only [stepS] at hq
    unfold clearQueue at hq
    rcases hq0 : getQ st n with _ | q0
    · rw [hq0] at hq
      exact h name q hq
    · rw [hq0] at hq
      by_cases hn : name = n
      · subst hn
        rw [getQ_setQ_self] at hq
        cases hq
        simp
      · rw [getQ_setQ_ne _ _ _ _ hn] at hq
        exact h name q hq

theorem qBound_runS (ops : List SOp) : QBound (runS ops) := by
  unfold runS
  induction ops using List.reverseRecOn with
  | nil =>
    intro name q hq
    simp [getQ, List.lookup] at hq
  | append_singleton l x ih =>
    rw [List.foldl_append]
    exact qBound_step _ x ih

/-- C4: for every named queue, when the number of waiting items equals the
configured max size, `enqueue` fails synchronously with the "queue full"
error and returns the service state unchanged (already-queued items and
their pending result handles untouched); consequently no reachable queue
ever holds more items than its configured max size. -/
theorem queue_full_rejects (ops : List SOp) (name : String) :
    (∀ q, getQ (runS ops) name = some q → q.queue.length ≤ q.maxSize) ∧
    (∀ q id p ts, getQ (runS ops) name = some q →
      q.queue.length = q.maxSize →
      enqueue (runS ops) name id p ts =
        (runS ops, Except.error (queueFullError name q.maxSize))) := by
  constructor
  · intro q hq
    exact qBound_runS ops name q hq
  · intro q id p ts hq hfull
    unfold enqueue
    simp only [hq, Option.isNone_some, Bool.false_eq_true, if_false]
    rw [if_pos (by omega)]

/-- Events of the C4 witness: a queue with concurrency 1 and max size 2;
the first task starts immediately, the next two fill the queue. -/
def c4ops : List SOp :=
  [SOp.init "q" 1 2, SOp.enq "q" 1 0 0, SOp.enq "q" 2 0 1, SOp.enq "q" 3 0 2]

/-- The "q" queue after `c4ops`: two waiting items, at max size. -/
def c4q : NamedQ :=
  { queue := [⟨2, 0, 1⟩, ⟨3, 0, 2⟩], processing := true, concurrency := 1
    maxSize := 2, running := [1], active := 1 }

/-- Witness for C4: the full queue rejects a fourth enqueue, returning the
state unchanged. -/
theorem queue_full_rejects_witness :
    getQ (runS c4ops) "q" = some c4q ∧
    enqueue (runS c4ops) "q" 9 0 9 =
      (runS c4ops, Except.error (queueFullError "q" 2)) := by
  refine ⟨by decide, ?_⟩
  exact (queue_full_rejects c4ops "q").2 c4q 9 0 9 (by decide) (by decide)

theorem insertByPriority_cons (h : QItem) (t : List QItem) (item : QItem) :
    insertByPriority (h :: t) item =
      if h.priority < item.priority then item :: h :: t
      else h :: insertByPriority t item := by
  unfold insertByPriority
  rw [List.findIdx?_cons, List.findIdx?_succ]
  by_cases hp : h.priority < item.priority
  · simp [hp]
  · simp only [hp, decide_eq_true_eq, if_false]
    cases hfi : t.findIdx? (fun q => decide (q.priority < item.priority)) with
    | none => simp [hfi]
    | some i => simp [hfi, List.take_succ_cons, List.drop_succ_cons]

theorem mem_insertByPriority (q : List QItem) (item b : QItem) :
    b ∈ insertByPriority q item ↔ b = item ∨ b ∈ q := by
  unfold insertByPriority
  cases hfi : q.findIdx? (fun x => x.priority < item.priority) with
  | none =>
    simp [List.mem_append]
    tauto
  | some i =>
    simp only [List.mem_append, List.mem_cons]
    constructor
    · rintro (hb | hb | hb)
      · exact Or.inr (List.take_subset i q hb)
      · exact Or.inl hb
      · exact Or.inr (List.drop_subset i q hb)
    · rintro (hb | hb)
      · exact Or.inr (Or.inl hb)
      · conv at hb => rw [← List.take_append_drop i q]
        rcases List.mem_append.mp hb with hb | hb
        · exact Or.inl hb
        · exact Or.inr (Or.inr hb)

/-- C5's order relation: descending priority. -/
def DescPrio (q : List QItem) : Prop :=
  List.Pairwise (fun a b => b.priority ≤ a.priority) q

theorem insertByPriority_sorted (q : List QItem) (item : QItem)
    (hq : DescPrio q) : DescPrio (insertByPriority q item) := by
  induction q with
  | nil =>
    unfold insertByPriority DescPrio
    simp
  | cons h t ih =>
    rcases List.pairwise_cons.mp hq with ⟨hh, ht⟩
    rw [insertByPriority_cons]
    split_ifs with hp
    · refine List.pairwise_cons.mpr ⟨?_, List.pairwise_cons.mpr ⟨hh, ht⟩⟩
      intro b hb
      rcases List.mem_cons.mp hb with rfl | hb
      · exact le_of_lt hp
      · exact le_trans (hh b hb) (le_of_lt hp)
    · refine List.pairwise_cons.mpr ⟨?_, ih ht⟩
      intro b hb
      rcases (mem_insertByPriority t item b).mp hb with rfl | hb
      · exact le_of_not_lt hp
      · exact hh b hb

/-- C5 events: a concurrency-0 queue keeps both items waiting; priorities
5 then 10. -/
def c5aops : List SOp :=
  [SOp.init "q" 0 1000, SOp.enq "q" 1 5 0, SOp.enq "q" 2 10 1]

/-- The resulting waiting queue of `c5aops`, with one free drain slot. -/
def c5qa : NamedQ :=
  { queue := [⟨2, 10, 1⟩, ⟨1, 5, 0⟩], processing := false, concurrency := 1
    maxSize := 1000, running := [], active := 0 }

/-- C5 events with equal priorities (FIFO tie-break). -/
def c5bops : List SOp :=
  [SOp.init "q" 0 1000, SOp.enq "q" 1 0 0, SOp.enq "q" 2 0 1]

/-- The resulting waiting queue of `c5bops`, with one free drain slot. -/
def c5qb : NamedQ :=
  { queue := [⟨1, 0, 0⟩, ⟨2, 0, 1⟩], processing := false, concurrency := 1
    maxSize := 1000, running := [], active := 0 }

/-- The waiting queue built by `c5aops` (drain disabled by concurrency 0). -/
def c5qa0 : NamedQ :=
  { queue := [⟨2, 10, 1⟩, ⟨1, 5, 0⟩], processing := false, concurrency := 0
    maxSize := 1000, running := [], active := 0 }

/-- The waiting queue built by `c5bops` (drain disabled by concurrency 0). -/
def c5qb0 : NamedQ :=
  { queue := [⟨1, 0, 0⟩, ⟨2, 0, 1⟩], processing := false, concurrency := 0
    maxSize := 1000, running := [], active := 0 }

/-- C5: `enqueue` inserts before the first existing item of strictly lower
priority (else appends), preserving descending-priority order with
insertion-order tie-break, and the drain pops from the head: items with
priorities 5 then 10 end up with the priority-10 item at the head and it
is started first when a drain slot opens; equal-priority items drain in
FIFO order. -/
theorem queue_priority_order :
    (∀ h t item, insertByPriority (h :: t) item =
      if h.priority < item.priority then item :: h :: t
      else h :: insertByPriority t item) ∧
    (∀ item, insertByPriority [] item = [item]) ∧
    (∀ q item, DescPrio q → DescPrio (insertByPriority q item)) ∧
    (∃ q, getQ (runS c5aops) "q" = some q ∧
      q.queue = [⟨2, 10, 1⟩, ⟨1, 5, 0⟩]) ∧
    ((processQueue c5qa).running = [2] ∧
      (processQueue c5qa).queue = [⟨1, 5, 0⟩]) ∧
    (∃ q, getQ (runS c5bops) "q" = some q ∧
      q.queue = [⟨1, 0, 0⟩, ⟨2, 0, 1⟩]) ∧
    ((processQueue c5qb).running = [1] ∧
      (processQueue c5qb).queue = [⟨2, 0, 1⟩]) := by
  refine ⟨insertByPriority_cons, fun item => rfl, insertByPriority_sorted,
    ?_, by decide, ?_, by decide⟩
  · exact ⟨c5qa0, by decide, rfl⟩
  · exact ⟨c5qb0, by decide, rfl⟩

/-- Witness for C5: the stable insert of a priority-10 item into the
singleton priority-5 queue is sorted descending. -/
theorem queue_priority_order_witness :
    DescPrio (insertByPriority [⟨1, 5, 0⟩] ⟨2, 10, 1⟩) :=
  queue_priority_order.2.2.1 [⟨1, 5, 0⟩] ⟨2, 10, 1⟩ (by simp [DescPrio])

theorem insertByPriority_ne_nil (q : List QItem) (item : QItem) :
    insertByPriority q item ≠ [] := by
  unfold insertByPriority
  cases hfi : q.findIdx? (fun x => x.priority < item.priority) with
  | none => simp
  | some i => simp

theorem processQueue_blocked (s : NamedQ) (h1 : s.queue ≠ [])
    (h2 : s.processing = true) : processQueue s = s := by
  unfold processQueue
  rw [if_neg h1, if_pos h2]

/-- Events of the C6 failing input: concurrency 2, three tasks submitted
back to back, then the first task settles. -/
def c6ops : List SOp :=
  [SOp.init "q" 2 1000, SOp.enq "q" 1 0 0, SOp.enq "q" 2 0 1,
   SOp.enq "q" 3 0 2]

/-- "q" after `c6ops`: only task 1 is running — not 2 = concurrency — and
tasks 2 and 3 wait while a slot is free. -/
def c6q1 : NamedQ :=
  { queue := [⟨2, 0, 1⟩, ⟨3, 0, 2⟩], processing := true, concurrency := 2
    maxSize := 1000, running := [1], active := 1 }

/-- "q" after task 1 settles: nothing runs, both slots are free, tasks 2
and 3 still wait, and the `processing` flag is stuck on (the re-entrant
`processQueue` from the `finally` handler returned early on the flag,
and the flag-clearing branch requires an empty queue). -/
def c6q2 : NamedQ :=
  { queue := [⟨2, 0, 1⟩, ⟨3, 0, 2⟩], processing := true, concurrency := 2
    maxSize := 1000, running := [], active := 0 }

/-- Events that neither re-initialize nor clear a queue. -/
def IsEnqOrSettle : SOp → Prop
  | SOp.enq _ _ _ _ => True
  | SOp.settle _ _ => True
  | _ => False

/-- The absorbing starvation state of queue "q": flag stuck on, nothing
running, task 2 still waiting. -/
def StuckS (st : SState) : Prop :=
  ∃ q, getQ st "q" = some q ∧ q.processing = true ∧ q.running = [] ∧
    (⟨2, 0, 1⟩ : QItem) ∈ q.queue

theorem stuckS_step (st : SState) (op : SOp) (hop : IsEnqOrSettle op)
    (hst : StuckS st) : StuckS (stepS st op) := by
  obtain ⟨q, hq, hproc, hrun, hmem⟩ := hst
  cases op with
  | init n c mx => exact absurd hop (by simp [IsEnqOrSettle])
  | clear n => exact absurd hop (by simp [IsEnqOrSettle])
  | enq n id p ts =>
    simp only [stepS]
    by_cases hn : n = "q"
    · subst hn
      unfold enqueue
      simp only [hq, Option.isNone_some, Bool.false_eq_true, if_false]
      split_ifs with hfull
      · exact ⟨q, hq, hproc, hrun, hmem⟩
      · have hblocked : processQueue { q with
            queue := insertByPriority q.queue ⟨id, p, ts⟩ } =
            { q with queue := insertByPriority q.queue ⟨id, p, ts⟩ } :=
          processQueue_blocked _ (insertByPriority_ne_nil _ _) hproc
        refine ⟨{ q with queue := insertByPriority q.queue ⟨id, p, ts⟩ },
          ?_, hproc, hrun, ?_⟩
        · show getQ (setQ "q" _ st) "q" = _
          rw [hblocked, getQ_setQ_self]
        · exact (mem_insertByPriority q.queue ⟨id, p, ts⟩ _).mpr (Or.inr hmem)
    · have hne : ("q" : String) ≠ n := fun he => hn he.symm
      refine ⟨q, ?_, hproc, hrun, hmem⟩
      rw [getQ_enqueue_ne st n "q" hne]
      exact hq
  | settle n tid =>
    simp only [stepS]
    by_cases hn : n = "q"
    · subst hn
      rw [hq]
      have hnotmem : tid ∉ q.running := by rw [hrun]; simp
      have hct : completeTask tid q = q := by
        unfold completeTask
        rw [if_neg hnotmem]
      show StuckS (setQ "q" (completeTask tid q) st)
      rw [hct]
      exact ⟨q, getQ_setQ_self st "q" q, hproc, hrun, hmem⟩
    · have hne : ("q" : String) ≠ n := fun he => hn he.symm
      rcases hq0 : getQ st n with _ | q0
      · exact ⟨q, hq, hproc, hrun, hmem⟩
      · show StuckS (setQ n (completeTask tid q0) st)
        refine ⟨q, ?_, hproc, hrun, hmem⟩
        rw [getQ_setQ_ne _ _ _ _ hne]
        exact hq

theorem stuckS_foldl (ops : List SOp) (st : SState)
    (hops : ∀ op ∈ ops, IsEnqOrSettle op) (hst : StuckS st) :
    StuckS (ops.foldl stepS st) := by
  induction ops generalizing st with
  | nil => exact hst
  | cons op rest ih =>
    simp only [List.foldl_cons]
    exact ih (stepS st op)
      (fun o ho => hops o (List.mem_cons_of_mem _ ho))
      (stuckS_step st op (hops op (List.mem_cons_self _ _)) hst)

/-- C6, divergence of the code from the claim: after submitting
concurrency + 1 = 3 tasks to a concurrency-2 queue, only ONE task is
running (not exactly 2); and once it settles, the two waiting tasks are
never started by any further enqueue/settlement events — the re-entrant
drain is permanently blocked by the stuck `processing` flag. -/
theorem queue_drain_starvation :
    getQ (runS c6ops) "q" = some c6q1 ∧
    getQ (runS (c6ops ++ [SOp.settle "q" 1])) "q" = some c6q2 ∧
    (∀ ops : List SOp, (∀ op ∈ ops, IsEnqOrSettle op) →
      ∀ q, getQ (ops.foldl stepS (runS (c6ops ++ [SOp.settle "q" 1]))) "q"
          = some q →
        q.running = [] ∧ q.processing = true ∧
          (⟨2, 0, 1⟩ : QItem) ∈ q.queue) := by
  refine ⟨by decide, by decide, ?_⟩
  intro ops hops q hq
  have hstuck : StuckS (runS (c6ops ++ [SOp.settle "q" 1])) :=
    ⟨c6q2, by decide, by decide, by decide, by decide⟩
  obtain ⟨q0, hq0, hp, hr, hm⟩ := stuckS_foldl ops _ hops hstuck
  rw [hq0] at hq
  cases hq
  exact ⟨hr, hp, hm⟩

/-- "q" after the starved state receives one more enqueue and a stray
settlement: still nothing runs. -/
def c6q3 : NamedQ :=
  { queue := [⟨2, 0, 1⟩, ⟨3, 0, 2⟩, ⟨4, 0, 9⟩], processing := true
    concurrency := 2, maxSize := 1000, running := [], active := 0 }

/-- Witness for C6: the starvation conclusion evaluated on a concrete
continuation of the failing input. -/
theorem queue_drain_starvation_witness :
    getQ ([SOp.enq "q" 4 0 9, SOp.settle "q" 2].foldl stepS
        (runS (c6ops ++ [SOp.settle "q" 1]))) "q" = some c6q3 ∧
    (c6q3.running = [] ∧ c6q3.processing = true ∧
      (⟨2, 0, 1⟩ : QItem) ∈ c6q3.queue) :=
  ⟨by decide,
    queue_drain_starvation.2.2 [SOp.enq "q" 4 0 9, SOp.settle "q" 2]
      (by simp [IsEnqOrSettle]) c6q3 (by decide)⟩

/-! ## Composition layer (src/frontend/lib/api-client.ts, with
`getErrorMessage` from src/frontend/lib/api.ts) -/

/-- `getErrorMessage(error)`: the response body's `message || error ||`
default for axios errors with a body; the network-error text for axios
errors with a request but no response; `error.message` for plain `Error`s;
a generic default otherwise. -/
def getErrorMessage (e : JsError) : String :=
  if e.isAxios then
    match e.response with
    | some ⟨_, some d⟩ => jsOrStr d.message (jsOrStr d.error "An error occurred")
    | _ =>
      if e.hasRequest then "Network error. Please check your connection."
      else if e.isError then e.message
      else "An unexpected error occurred"
  else if e.isError then e.message
  else "An unexpected error occurred"

/-- The custom retry predicate of `ApiClient.request`: retry 429 and 5xx
responses, and all network-level errors. -/
def apiRetryable (e : JsError) : Bool :=
  match e.response with
  | some r => decide (r.status = 429) ||
      decide (500 ≤ r.status ∧ r.status < 600)
  | none => true

/-- The breaker configuration of the `ApiClient` constructor. -/
def apiBreakerConfig : BConfig :=
  resolveOptions
    { timeout := some 10000, errorThresholdPercentage := some 50
      resetTimeout := some 30000 }

/-- The retry options passed by `ApiClient.request` (`maxDelay` and
`jitter` keep their destructuring defaults). -/
def apiRetryOpts : RetryOpts :=
  { maxAttempts := 3, initialDelay := 1000, factor := 2 }

/-- One attempt of `ApiClient.request`:
`() => this.circuitBreaker.fire(config)`.  The threaded state is the
breaker state plus the 0-based index of the next call; `op n` is the
outcome of the n-th underlying axios invocation and `times n` is
`Date.now()` at that call. -/
def requestStep (op : Nat → Except JsError Nat) (times : Nat → Nat) :
    BState × Nat → (BState × Nat) × Except JsError Nat :=
  fun s =>
    let r := fire apiBreakerConfig (times s.2) (op s.2) s.1
    ((r.1, s.2 + 1), r.2.1)

/-- `throw new Error(getErrorMessage(error))` in the catch of
`ApiClient.request`: a freshly allocated plain Error (identity tag 0)
carrying the derived message. -/
def wrapError (e : JsError) : JsError :=
  { isAxios := false, isError := true, hasRequest := false, response := none
    message := getErrorMessage e, tag := 0 }

/-- `ApiClient.request`: retry wrapped around the circuit breaker around
the underlying operation; a final failure is re-thrown wrapped. -/
def request (op : Nat → Except JsError Nat) (times : Nat → Nat)
    (rand : Nat → ℚ) (s : BState) : (BState × Nat) × Except JsError Nat :=
  let r := retryWithBackoff (requestStep op times) apiRetryable apiRetryOpts
    rand (s, 0)
  match r.2.1 with
  | Except.ok v => (r.1, Except.ok v)
  | Except.error e => (r.1, Except.error (wrapError e))

/-- The caller-created innermost error of the C9 scenario: a plain
`Error("boom")` with object identity tag 7. -/
def c9err : JsError := { message := "boom", tag := 7 }

/-- Counterexample to C9 as stated: an operation that always fails with
the plain error `c9err` exhausts the composed policy, and the error
surfaced by `ApiClient.request` is a *new* `Error` — it carries the same
message but is not the innermost error object (`tag` 0 ≠ 7): identity is
not preserved. -/
theorem composition_error_identity_counterexample :
    (request (fun _ => Except.error c9err) (fun _ => 0) (fun _ => 0)
      initB).2 = Except.error (wrapError c9err) ∧
    wrapError c9err ≠ c9err ∧
    (wrapError c9err).message = c9err.message := by
  refine ⟨rfl, by decide, by decide⟩

/-- C9 (amended): when the composed protected call exhausts its retry
policy over an always-failing, retryable operation (the breaker, starting
closed, stays closed across the 3 attempts since 3 < its threshold 5), the
surfaced error is a freshly allocated `Error` whose message is
`getErrorMessage` of the innermost (last-attempt) error — equal to that
error's own message whenever it is a plain (non-axios) `Error` — while the
innermost error's object identity is not what the caller receives. -/
theorem composition_surfaces_wrapped_innermost
    (es : Nat → JsError) (times : Nat → Nat) (rand : Nat → ℚ)
    (hre : ∀ n, apiRetryable (es n) = true) :
    (request (fun n => Except.error (es n)) times rand initB).2
      = Except.error (wrapError (es 2)) ∧
    ((es 2).isAxios = false → (es 2).isError = true →
      (wrapError (es 2)).message = (es 2).message) := by
  constructor
  · have h0 := hre 0
    have h1 := hre 1
    have h2 := hre 2
    have hcl : ¬ (BMode.closed = BMode.opened) := by decide
    norm_num [request, retryWithBackoff, retryGo, requestStep, apiRetryOpts,
      fire, runCall, initB, h0, h1, h2, apiBreakerConfig, failureThreshold,
      resolveOptions, jsOrNat, reduceCtorEq, reduceIte, hcl]
  · intro hax herr
    show getErrorMessage (es 2) = (es 2).message
    unfold getErrorMessage
    rw [hax, herr]
    simp

/-- Witness for C9 (amended): evaluated at the concrete always-failing
plain error `c9err`. -/
theorem composition_surfaces_wrapped_innermost_witness :
    (request (fun _ => Except.error c9err) (fun _ => 0) (fun _ => 0)
      initB).2 = Except.error (wrapError c9err) ∧
    (c9err.isAxios = false → c9err.isError = true →
      (wrapError c9err).message = c9err.message) :=
  composition_surfaces_wrapped_innermost (fun _ => c9err) (fun _ => 0)
    (fun _ => 0) (fun _ => show apiRetryable c9err = true by decide)
